import Mathlib

/-!
Verification of the `trading-strategies` repository: a shallow embedding of
the backtest engine (`app/backtest/engine.py`), the volatility-contraction
strategy signal loop (`app/strategies/volatility_contraction.py`), and the
parameter setters (`app/strategies/base.py`, `app/strategies/mean_reversion.py`),
together with theorems settling the specification claims.

Modelling conventions:
* Python floats are modelled as rationals (`ℚ`); `float('nan')` entries of the
  ATR column are modelled as `Option ℚ` with `none` for NaN.
* A pandas DataFrame is modelled as a record of total column functions
  `ℕ → value` plus a length, with one presence flag per column; accessing an
  absent column produces `Except.error` carrying the column name, modelling a
  pandas `KeyError`.
* Python exceptions are modelled with `Except String`; in-place mutation of a
  strategy object is modelled by returning the final attribute store together
  with an optional raised error.
* `round(x, d)` on floats is modelled by exact round-half-to-even on `ℚ`.
* `np.sqrt`/`np.std` appear only in the `sharpe_ratio` metric, which is
  genuinely floating-point/irrational; that single output field is left out of
  the modelled `BacktestResult` (no claim depends on its value).
-/

/-! ## Parameter values and coercion (`base.py`, `mean_reversion.py`) -/

/-- A Python value that can appear as a strategy parameter or as a candidate
value passed to `set_parameters`: int, float, bool or str. -/
inductive PVal where
  | i (n : ℤ)
  | f (q : ℚ)
  | b (bv : Bool)
  | s (str : String)
deriving DecidableEq

/-- Digits of a decimal string, most significant first. -/
def digitsVal? : List Char → Option ℕ
  | [] => none
  | [c] => if c.isDigit then some (c.toNat - 48) else none
  | c :: cs =>
    if c.isDigit then
      match digitsVal? cs with
      | some m => some ((c.toNat - 48) * 10 ^ cs.length + m)
      | none => none
    else none

/-- Parse an optionally signed integer literal, as accepted by Python `int(str)`. -/
def parseInt? (s : String) : Option ℤ :=
  match s.data with
  | '-' :: cs => (digitsVal? cs).map (fun m => -(m : ℤ))
  | cs => (digitsVal? cs).map (fun m => (m : ℤ))

/-- Split a character list at the first decimal point, if any. -/
def breakAtDot : List Char → List Char × Option (List Char)
  | [] => ([], none)
  | c :: cs =>
    if c = '.' then ([], some cs)
    else
      let r := breakAtDot cs
      (c :: r.1, r.2)

/-- Unsigned decimal literal: digits with an optional fractional part. -/
def parseRatPos? (cs : List Char) : Option ℚ :=
  match breakAtDot cs with
  | (a, none) => (digitsVal? a).map (fun m => (m : ℚ))
  | (a, some b) =>
    match digitsVal? a, digitsVal? b with
    | some n, some m => some ((n : ℚ) + (m : ℚ) / 10 ^ b.length)
    | _, _ => none

/-- Parse an optionally signed decimal literal (`"2"`, `"-2.5"`), the common
forms accepted by Python `float(str)`. -/
def parseRat? (s : String) : Option ℚ :=
  match s.data with
  | '-' :: cs => (parseRatPos? cs).map Neg.neg
  | cs => parseRatPos? cs

/-- Python `int(value)`: ints pass through, floats truncate toward zero, bools
become 0/1, strings must parse as an integer literal or a `ValueError` is
raised. -/
def pyInt (v : PVal) : Except String PVal :=
  match v with
  | .i n => .ok (.i n)
  | .f q => .ok (.i (Int.tdiv q.num q.den))
  | .b bv => .ok (.i (if bv then 1 else 0))
  | .s str =>
    match parseInt? str with
    | some n => .ok (.i n)
    | none => .error ("invalid literal for int() with base 10: " ++ str)

/-- Python `float(value)`: numbers pass through, bools become 0.0/1.0, strings
must parse as a decimal literal or a `ValueError` is raised. -/
def pyFloat (v : PVal) : Except String PVal :=
  match v with
  | .i n => .ok (.f (n : ℚ))
  | .f q => .ok (.f q)
  | .b bv => .ok (.f (if bv then 1 else 0))
  | .s str =>
    match parseRat? str with
    | some q => .ok (.f q)
    | none => .error ("could not convert string to float: " ++ str)

/-- Python `bool(value)`: truthiness; never raises. -/
def pyBool (v : PVal) : PVal :=
  match v with
  | .i n => .b (n ≠ 0)
  | .f q => .b (q ≠ 0)
  | .b bv => .b bv
  | .s str => .b (str ≠ "")

/-- Python `str(value)`; never raises.  No strategy in the repository has a
string-typed parameter, so the numeric renderings here are never reached by
the claims; they are included only to make the coercion total. -/
def pyStrOf (v : PVal) : PVal :=
  match v with
  | .s str => .s str
  | .i n => .s (toString n)
  | .f q => .s (toString q)
  | .b bv => .s (if bv then "True" else "False")

/-- `expected_type(value)` from `BaseStrategy.set_parameters` (base.py line 33):
coerce `v` to the runtime type of the current value `cur`. -/
def coerceTo (cur v : PVal) : Except String PVal :=
  match cur with
  | .i _ => pyInt v
  | .f _ => pyFloat v
  | .b _ => .ok (pyBool v)
  | .s _ => .ok (pyStrOf v)

/-- The attribute store of a strategy object: parameter name to current value,
in declaration order. -/
abbrev ParamStore := List (String × PVal)

/-- `setattr(self, k, v)` on the modelled attribute store. -/
def setAttr (store : ParamStore) (k : String) (v : PVal) : ParamStore :=
  store.map (fun p => if p.1 = k then (k, v) else p)

/-- `BaseStrategy.set_parameters` (base.py lines 27-33).  Iterates the provided
mapping in order; keys absent from `get_parameters()` are skipped; each present
key is coerced to the declared type and assigned immediately.  The result is
the attribute store when the call finishes or when an exception escapes,
paired with the raised error message if any (mutation already performed is
kept, exactly as for a Python object). -/
def set_parameters_base (store : ParamStore) : List (String × PVal) → ParamStore × Option String
  | [] => (store, none)
  | (k, v) :: rest =>
    match store.lookup k with
    | none => set_parameters_base store rest
    | some cur =>
      match coerceTo cur v with
      | .error e => (store, some e)
      | .ok v2 => set_parameters_base (setAttr store k v2) rest

/-- Bool coercion of `MeanReversionStrategy.set_parameters` (mean_reversion.py
lines 56-60): strings are compared lowercased against true/1/yes, anything
else goes through `bool(value)`. -/
def coerceBoolMR (v : PVal) : PVal :=
  match v with
  | .s str => .b (str.toLower = "true" ∨ str.toLower = "1" ∨ str.toLower = "yes")
  | _ => pyBool v

/-- `MeanReversionStrategy.set_parameters` (mean_reversion.py lines 50-62). -/
def set_parameters_mr (store : ParamStore) : List (String × PVal) → ParamStore × Option String
  | [] => (store, none)
  | (k, v) :: rest =>
    match store.lookup k with
    | none => set_parameters_mr store rest
    | some cur =>
      match cur with
      | .b _ => set_parameters_mr (setAttr store k (coerceBoolMR v)) rest
      | _ =>
        match coerceTo cur v with
        | .error e => (store, some e)
        | .ok v2 => set_parameters_mr (setAttr store k v2) rest

/-- Default parameters of `MeanReversionStrategy.__init__`. -/
def mrDefaults : ParamStore :=
  [("rsi_period", .i 14), ("rsi_oversold", .i 30), ("rsi_overbought", .i 70),
   ("use_bollinger", .b true), ("bb_period", .i 20), ("bb_std", .f 2)]

/-- Default parameters of `VolatilityContractionStrategy.__init__`. -/
def vcDefaults : ParamStore :=
  [("bb_period", .i 20), ("bb_std", .f 2), ("atr_period", .i 14),
   ("squeeze_percentile", .i 20), ("atr_percentile", .i 25), ("lookback", .i 50)]

/-! ## Volatility-contraction signal loop (`volatility_contraction.py` 81-94)

The loop consumes four derived per-bar columns of the DataFrame: the 0/1
`squeeze` flag and the numeric `close`, `bb_upper`, `bb_lower` columns.  They
are modelled as given column functions (the upstream indicator computations of
lines 52-77 populate them; the claims are about the signal loop itself). -/

/-- The per-bar columns read by the volatility-contraction signal loop. -/
structure VCData where
  n : ℕ
  squeeze : ℕ → Bool
  close : ℕ → ℚ
  bb_upper : ℕ → ℚ
  bb_lower : ℕ → ℚ

/-- Value of the `in_squeeze` flag after the loop iteration for bar `i`
(`vcInSq d 0 = false` is the initial value before the loop). -/
def vcInSq (d : VCData) : ℕ → Bool
  | 0 => false
  | i + 1 =>
    let s := if d.squeeze i then true else vcInSq d i
    if s && !d.squeeze (i + 1) then
      if d.bb_upper (i + 1) < d.close (i + 1) then false
      else if d.close (i + 1) < d.bb_lower (i + 1) then false
      else s
    else s

/-- The `signal` column written by the loop: bar 0 keeps its initial 0, and
bar `i+1` is assigned during iteration `i+1` exactly as in lines 84-93. -/
def vcSignal (d : VCData) : ℕ → ℤ
  | 0 => 0
  | i + 1 =>
    let s := if d.squeeze i then true else vcInSq d i
    if s && !d.squeeze (i + 1) then
      if d.bb_upper (i + 1) < d.close (i + 1) then 1
      else if d.close (i + 1) < d.bb_lower (i + 1) then -1
      else 0
    else 0

/-! ## Backtest engine (`engine.py`) -/

/-- The `Trade` dataclass (engine.py lines 13-23). -/
structure Trade where
  entry_idx : ℕ
  entry_price : ℚ
  direction : ℤ
  stop_loss : ℚ
  take_profit : ℚ
  exit_idx : ℤ := -1
  exit_price : ℚ := 0
  pnl : ℚ := 0
  closed : Bool := false
deriving DecidableEq

instance : Inhabited Trade :=
  ⟨{ entry_idx := 0, entry_price := 0, direction := 0, stop_loss := 0, take_profit := 0 }⟩

/-- One entry of `BacktestResult.trades` (engine.py lines 197-209): the
dict built from a closed trade, with prices rounded to 5 decimal places and
pnl rounded to 2. -/
structure TradeDict where
  entry_idx : ℕ
  entry_price : ℚ
  exit_idx : ℤ
  exit_price : ℚ
  direction : String
  pnl : ℚ
  stop_loss : ℚ
  take_profit : ℚ
deriving DecidableEq

/-- The `BacktestResult` dataclass (engine.py lines 26-34), minus the
floating-point `sharpe_ratio` field (see the header comment). -/
structure BacktestResult where
  trades : List TradeDict := []
  equity_curve : List ℚ := []
  win_rate : ℚ := 0
  total_trades : ℕ := 0
  total_pnl : ℚ := 0
  max_drawdown : ℚ := 0
deriving DecidableEq

instance : Inhabited BacktestResult := ⟨{}⟩

/-- The input DataFrame of `run_backtest`: per-column total functions plus a
presence flag per column.  `atr i = none` models a NaN entry. -/
structure RawDF where
  length : ℕ
  hasTime : Bool := true
  hasOpen : Bool := true
  hasHigh : Bool := true
  hasLow : Bool := true
  hasClose : Bool := true
  hasSignal : Bool := true
  hasAtr : Bool := true
  openP : ℕ → ℚ := fun _ => 0
  high : ℕ → ℚ := fun _ => 0
  low : ℕ → ℚ := fun _ => 0
  close : ℕ → ℚ := fun _ => 0
  signal : ℕ → ℤ := fun _ => 0
  atr : ℕ → Option ℚ := fun _ => none

/-- Column access: `.ok` the value when the column exists, otherwise a
`KeyError` carrying the column name. -/
def readCol {α : Type} (has : Bool) (name : String) (v : α) : Except String α :=
  if has then .ok v else .error name

/-- True range of bar `i` (`_compute_atr`, engine.py lines 38-41).  Bar 0 has
no previous close, so its `high-close`/`low-close` legs are NaN and the
row-wise max reduces to `high - low`. -/
def trueRange (df : RawDF) (i : ℕ) : ℚ :=
  if i = 0 then df.high 0 - df.low 0
  else
    max (df.high i - df.low i)
      (max |df.high i - df.close (i - 1)| |df.low i - df.close (i - 1)|)

/-- `tr.rolling(period).mean()` (engine.py line 42): NaN until `period` bars
exist, then the mean of the trailing window. -/
def computeAtr (df : RawDF) (period : ℕ) (i : ℕ) : Option ℚ :=
  if i + 1 < period then none
  else some ((((List.range period).map (fun k => trueRange df (i - k))).sum) / period)

/-- The ATR column used by the loop (engine.py lines 66-68): the provided
column when present, otherwise `_compute_atr(df)` with period 14, which reads
the high/low/close columns. -/
def getAtrCol (df : RawDF) : Except String (ℕ → Option ℚ) :=
  if df.hasAtr then .ok df.atr
  else if ¬ df.hasHigh then .error "high"
  else if ¬ df.hasLow then .error "low"
  else if ¬ df.hasClose then .error "close"
  else .ok (computeAtr df 14)

/-- The engine configuration after the one-off spread conversion of
engine.py line 73. -/
structure Params where
  spread : ℚ
  sl_atr_mult : ℚ
  tp_atr_mult : ℚ
  risk_pct : ℚ
deriving DecidableEq

/-- `spread = spread_pips * 0.0001` (engine.py line 73): the engine converts
the pips argument to price units itself, assuming 4-digit pairs. -/
def pipsToPrice (spread_pips : ℚ) : ℚ := spread_pips * (1 / 10000)

/-- The parameter record `run_backtest` works with, built from its arguments. -/
def mkParams (spread_pips sl_atr_mult tp_atr_mult risk_pct : ℚ) : Params :=
  { spread := pipsToPrice spread_pips
    sl_atr_mult := sl_atr_mult
    tp_atr_mult := tp_atr_mult
    risk_pct := risk_pct }

/-- The mutable simulation state of the loop (engine.py lines 75-78). -/
structure EngState where
  capital : ℚ
  equity : List ℚ
  trades : List Trade
  openTrade : Option Trade
deriving DecidableEq

instance : Inhabited EngState := ⟨⟨0, [], [], none⟩⟩

/-- Initial state (engine.py lines 75-78). -/
def initState (initial_capital : ℚ) : EngState :=
  { capital := initial_capital
    equity := [initial_capital]
    trades := []
    openTrade := none }

/-- The SL/TP hit decision for the open trade on one bar (engine.py lines
92-107): `none` when neither level is touched, otherwise the pair of
`hit_sl` (true for a stop-loss exit, false for take-profit) and the exit
price.  For a long trade the stop is checked on the low before the target on
the high; mirrored for a short trade. -/
def checkExitHit (direction : ℤ) (stop_loss take_profit high low spread : ℚ) :
    Option (Bool × ℚ) :=
  if direction = 1 then
    if low ≤ stop_loss then some (true, stop_loss - spread / 2)
    else if take_profit ≤ high then some (false, take_profit - spread / 2)
    else none
  else
    if stop_loss ≤ high then some (true, stop_loss + spread / 2)
    else if low ≤ take_profit then some (false, take_profit + spread / 2)
    else none

/-- Position-sized pnl of a closing trade (engine.py lines 112-120 and the
identical 157-164): raw price pnl scaled by `risk_amount / sl_dist`, forced to
0 when the stop distance is zero. -/
def sizedPnl (p : Params) (capital : ℚ) (t : Trade) (exit_price : ℚ) : ℚ :=
  let pnl := (exit_price - t.entry_price) * (t.direction : ℚ)
  let risk_amount := p.risk_pct * capital
  let sl_dist := |t.entry_price - t.stop_loss|
  if 0 < sl_dist then pnl * (risk_amount / sl_dist) else 0

/-- Close the open trade at `exit_price` on bar `i` (engine.py lines 109-124):
record exit data and pnl on the trade, add the pnl to capital, append the
trade to the ledger and free the position slot. -/
def closeTrade (p : Params) (st : EngState) (i : ℕ) (t : Trade) (exit_price : ℚ) :
    EngState :=
  let tpnl := sizedPnl p st.capital t exit_price
  let t2 := { t with exit_idx := (i : ℤ), exit_price := exit_price, pnl := tpnl, closed := true }
  { st with capital := st.capital + tpnl
            trades := st.trades ++ [t2]
            openTrade := none }

/-- The exit check of one bar (engine.py lines 90-124). -/
def processExit (p : Params) (st : EngState) (i : ℕ) (high low : ℚ) : EngState :=
  match st.openTrade with
  | none => st
  | some t =>
    match checkExitHit t.direction t.stop_loss t.take_profit high low p.spread with
    | none => st
    | some hit => closeTrade p st i t hit.2

/-- The entry check of one bar (engine.py lines 126-148): only when flat and
the signal is nonzero; entry at close adjusted by half the spread, SL/TP at
ATR multiples. -/
def processEntry (p : Params) (st : EngState) (i : ℕ) (close : ℚ) (signal : ℤ) (atr : ℚ) :
    EngState :=
  match st.openTrade with
  | some _ => st
  | none =>
    if signal ≠ 0 then
      let direction := signal
      let sl_dist := atr * p.sl_atr_mult
      let tp_dist := atr * p.tp_atr_mult
      let entry_price := if direction = 1 then close + p.spread / 2 else close - p.spread / 2
      let stop_loss := if direction = 1 then entry_price - sl_dist else entry_price + sl_dist
      let take_profit := if direction = 1 then entry_price + tp_dist else entry_price - tp_dist
      let t : Trade :=
        { entry_idx := i
          entry_price := entry_price
          direction := direction
          stop_loss := stop_loss
          take_profit := take_profit }
      { st with openTrade := some t }
    else st

/-- One iteration of the bar loop (engine.py lines 80-150).  A NaN or zero ATR
skips all trade logic for the bar and only appends the current capital to the
equity curve; otherwise the close/high/low columns are read, the exit check
runs, the signal column is read, the entry check runs, and the (possibly
updated) capital is appended. -/
def stepBar (df : RawDF) (p : Params) (atrCol : ℕ → Option ℚ) (st : EngState) (i : ℕ) :
    Except String EngState :=
  match atrCol i with
  | none => .ok { st with equity := st.equity ++ [st.capital] }
  | some a =>
    if a = 0 then .ok { st with equity := st.equity ++ [st.capital] }
    else if ¬ df.hasClose then .error "close"
    else if ¬ df.hasHigh then .error "high"
    else if ¬ df.hasLow then .error "low"
    else
      let st1 := processExit p st i (df.high i) (df.low i)
      if ¬ df.hasSignal then .error "signal"
      else
        let st2 := processEntry p st1 i (df.close i) (df.signal i) a
        .ok { st2 with equity := st2.equity ++ [st2.capital] }

/-- `for i in range(1, len(df))` (engine.py line 80) as a recursion on the
number of remaining bars, starting at index `i`. -/
def runBars (df : RawDF) (p : Params) (atrCol : ℕ → Option ℚ) :
    ℕ → ℕ → EngState → Except String EngState
  | _, 0, st => .ok st
  | i, steps + 1, st =>
    match stepBar df p atrCol st i with
    | .error e => .error e
    | .ok st2 => runBars df p atrCol (i + 1) steps st2

/-- The simulation up to but excluding the final force-close: ATR column
setup (lines 66-68) and the bar loop (lines 80-150). -/
def runSim (df : RawDF) (p : Params) (initial_capital : ℚ) : Except String EngState :=
  match getAtrCol df with
  | .error e => .error e
  | .ok atrCol => runBars df p atrCol 1 (df.length - 1) (initState initial_capital)

/-- Force-close of a position still open after the last bar (engine.py lines
152-167), at the final bar close, with the same pnl formula. -/
def finalizeState (df : RawDF) (p : Params) (st : EngState) : Except String EngState :=
  match st.openTrade with
  | none => .ok st
  | some t =>
    if ¬ df.hasClose then .error "close"
    else
      let last_close := df.close (df.length - 1)
      let tpnl := sizedPnl p st.capital t last_close
      let t2 := { t with exit_idx := (df.length : ℤ) - 1, exit_price := last_close,
                         pnl := tpnl, closed := true }
      .ok { st with capital := st.capital + tpnl
                    trades := st.trades ++ [t2]
                    openTrade := none }

/-- Round-half-to-even on `ℚ`, the idealized model of Python `round`. -/
def roundHalfEven (x : ℚ) : ℤ :=
  let n := ⌊x⌋
  let r := x - n
  if r < 1 / 2 then n
  else if 1 / 2 < r then n + 1
  else if n % 2 = 0 then n else n + 1

/-- `round(x, d)` of Python, modelled exactly on `ℚ`. -/
def roundTo (d : ℕ) (x : ℚ) : ℚ :=
  (roundHalfEven (x * 10 ^ d) : ℚ) / 10 ^ d

/-- The dict built from a closed trade (engine.py lines 197-209). -/
def tradeDict (t : Trade) : TradeDict :=
  { entry_idx := t.entry_idx
    entry_price := roundTo 5 t.entry_price
    exit_idx := t.exit_idx
    exit_price := roundTo 5 t.exit_price
    direction := if t.direction = 1 then "LONG" else "SHORT"
    pnl := roundTo 2 t.pnl
    stop_loss := roundTo 5 t.stop_loss
    take_profit := roundTo 5 t.take_profit }

/-- Sum of the raw (unrounded) pnl of a trade list. -/
def sumPnl (trades : List Trade) : ℚ := (trades.map Trade.pnl).sum

/-- Running-peak maximum drawdown over the equity curve (engine.py lines
186-195); the peak starts at the first equity value. -/
def maxDrawdown (equity : List ℚ) : ℚ :=
  (equity.foldl
    (fun (acc : ℚ × ℚ) v =>
      let peak := if acc.1 < v then v else acc.1
      let dd := if 0 < peak then (peak - v) / peak else 0
      (peak, if acc.2 < dd then dd else acc.2))
    (equity.headD 0, 0)).2

/-- Metric computation (engine.py lines 169-209): `total_trades` and the
equity curve are always set; the remaining metrics and the rounded trade
dicts only when at least one trade closed. -/
def buildResult (st : EngState) : BacktestResult :=
  if st.trades = [] then
    { total_trades := st.trades.length, equity_curve := st.equity }
  else
    { trades := st.trades.map tradeDict
      equity_curve := st.equity
      win_rate := ((st.trades.filter (fun t => 0 < t.pnl)).length : ℚ) / st.trades.length
      total_trades := st.trades.length
      total_pnl := sumPnl st.trades
      max_drawdown := maxDrawdown st.equity }

/-- `run_backtest` (engine.py lines 45-211), with the same defaulted
arguments. -/
def run_backtest (df : RawDF) (spread_pips : ℚ := 3 / 2) (sl_atr_mult : ℚ := 3 / 2)
    (tp_atr_mult : ℚ := 2) (risk_pct : ℚ := 1 / 100) (initial_capital : ℚ := 10000) :
    Except String BacktestResult :=
  match runSim df (mkParams spread_pips sl_atr_mult tp_atr_mult risk_pct) initial_capital with
  | .error e => .error e
  | .ok st =>
    match finalizeState df (mkParams spread_pips sl_atr_mult tp_atr_mult risk_pct) st with
    | .error e => .error e
    | .ok st2 => .ok (buildResult st2)

/-! ## Structural lemmas about the engine step -/

theorem closeTrade_equity (p : Params) (st : EngState) (i : ℕ) (t : Trade) (x : ℚ) :
    (closeTrade p st i t x).equity = st.equity := rfl

theorem processExit_equity (p : Params) (st : EngState) (i : ℕ) (high low : ℚ) :
    (processExit p st i high low).equity = st.equity := by
  unfold processExit
  split
  · rfl
  · split
    · rfl
    · rfl

theorem processEntry_equity (p : Params) (st : EngState) (i : ℕ) (c : ℚ) (s : ℤ) (a : ℚ) :
    (processEntry p st i c s a).equity = st.equity := by
  unfold processEntry
  split
  · rfl
  · split
    · rfl
    · rfl

theorem processEntry_capital (p : Params) (st : EngState) (i : ℕ) (c : ℚ) (s : ℤ) (a : ℚ) :
    (processEntry p st i c s a).capital = st.capital := by
  unfold processEntry
  split
  · rfl
  · split
    · rfl
    · rfl

theorem processEntry_trades (p : Params) (st : EngState) (i : ℕ) (c : ℚ) (s : ℤ) (a : ℚ) :
    (processEntry p st i c s a).trades = st.trades := by
  unfold processEntry
  split
  · rfl
  · split
    · rfl
    · rfl

theorem sumPnl_append (l : List Trade) (t : Trade) :
    sumPnl (l ++ [t]) = sumPnl l + t.pnl := by
  simp [sumPnl]

theorem closeTrade_capSum (p : Params) (st : EngState) (i : ℕ) (t : Trade) (x : ℚ) :
    (closeTrade p st i t x).capital - sumPnl (closeTrade p st i t x).trades
      = st.capital - sumPnl st.trades := by
  simp only [closeTrade, sumPnl_append]
  ring

theorem processExit_capSum (p : Params) (st : EngState) (i : ℕ) (high low : ℚ) :
    (processExit p st i high low).capital - sumPnl (processExit p st i high low).trades
      = st.capital - sumPnl st.trades := by
  unfold processExit
  split
  · rfl
  · split
    · rfl
    · apply closeTrade_capSum

/-- Per-trade well-formedness maintained by the loop: every trade was opened
at some bar index of `range(1, len(df))`, at the bar close adjusted by half
the engine spread. -/
def tradeProps (df : RawDF) (p : Params) (t : Trade) : Prop :=
  1 ≤ t.entry_idx ∧
  (t.direction = 1 → t.entry_price = df.close t.entry_idx + p.spread / 2) ∧
  (t.direction ≠ 1 → t.entry_price = df.close t.entry_idx - p.spread / 2)

/-- The loop invariant over the simulation state: `tradeProps` holds for the
ledger and for the open position. -/
def stInv (df : RawDF) (p : Params) (st : EngState) : Prop :=
  (∀ t ∈ st.trades, tradeProps df p t) ∧ ∀ t, st.openTrade = some t → tradeProps df p t

theorem tradeProps_update (df : RawDF) (p : Params) (t : Trade) (ei : ℤ) (ep pq : ℚ)
    (b : Bool) (h : tradeProps df p t) :
    tradeProps df p { t with exit_idx := ei, exit_price := ep, pnl := pq, closed := b } := h

theorem processExit_inv (p : Params) (st : EngState) (i : ℕ) (high low : ℚ)
    (df : RawDF) (h : stInv df p st) :
    stInv df p (processExit p st i high low) := by
  unfold processExit
  split
  · exact h
  · rename_i t hO
    split
    · exact h
    · rename_i hit hH
      have ht : tradeProps df p t := h.2 t hO
      constructor
      · intro u hu
        simp only [closeTrade, List.mem_append, List.mem_singleton] at hu
        rcases hu with hu | hu
        · exact h.1 u hu
        · subst hu
          exact tradeProps_update df p t _ _ _ _ ht
      · intro u hu
        simp [closeTrade] at hu

theorem processEntry_inv (p : Params) (st : EngState) (i : ℕ) (s : ℤ) (a : ℚ)
    (df : RawDF) (hi : 1 ≤ i) (h : stInv df p st) :
    stInv df p (processEntry p st i (df.close i) s a) := by
  unfold processEntry
  split
  · exact h
  · rename_i hO
    split
    · constructor
      · exact h.1
      · intro u hu
        simp only [Option.some.injEq] at hu
        subst hu
        refine ⟨hi, ?_, ?_⟩
        · intro hd
          dsimp only at hd ⊢
          rw [if_pos hd]
        · intro hd
          dsimp only at hd ⊢
          rw [if_neg hd]
    · exact h

theorem stInv_equity (df : RawDF) (p : Params) (st : EngState) (l : List ℚ)
    (h : stInv df p st) : stInv df p { st with equity := l } := h

theorem stepBar_ok (df : RawDF) (p : Params) (atrCol : ℕ → Option ℚ) (st : EngState)
    (i : ℕ) (st' : EngState) (h : stepBar df p atrCol st i = .ok st') :
    st'.equity = st.equity ++ [st'.capital] ∧
    st'.capital - sumPnl st'.trades = st.capital - sumPnl st.trades ∧
    (1 ≤ i → stInv df p st → stInv df p st') := by
  unfold stepBar at h
  split at h
  · injection h with h
    subst h
    exact ⟨rfl, rfl, fun _ hInv => hInv⟩
  · rename_i a hA
    split at h
    · injection h with h
      subst h
      exact ⟨rfl, rfl, fun _ hInv => hInv⟩
    · split at h
      · simp at h
      · split at h
        · simp at h
        · split at h
          · simp at h
          · split at h
            · simp at h
            · injection h with h
              subst h
              refine ⟨?_, ?_, ?_⟩
              · simp [processEntry_equity, processExit_equity, processEntry_capital]
              · simp only [processEntry_capital, processEntry_trades]
                apply processExit_capSum
              · intro hi hInv
                exact stInv_equity _ _ _ _
                  (processEntry_inv p _ i (df.signal i) a df hi
                    (processExit_inv p st i (df.high i) (df.low i) df hInv))

theorem head?_append_left {α : Type} (l₁ l₂ : List α) (h : l₁ ≠ []) :
    (l₁ ++ l₂).head? = l₁.head? := by
  cases l₁ with
  | nil => exact absurd rfl h
  | cons a l => rfl

theorem runBars_ok (df : RawDF) (p : Params) (atrCol : ℕ → Option ℚ) (steps : ℕ) :
    ∀ (i : ℕ) (st st' : EngState), runBars df p atrCol i steps st = .ok st' →
      st'.equity.length = st.equity.length + steps ∧
      (st.equity ≠ [] → st'.equity.head? = st.equity.head? ∧ st'.equity ≠ []) ∧
      st'.capital - sumPnl st'.trades = st.capital - sumPnl st.trades ∧
      (st.equity.getLast? = some st.capital → st'.equity.getLast? = some st'.capital) ∧
      (1 ≤ i → stInv df p st → stInv df p st') := by
  induction steps with
  | zero =>
    intro i st st' h
    unfold runBars at h
    injection h with h
    subst h
    exact ⟨rfl, fun hne => ⟨rfl, hne⟩, rfl, fun hl => hl, fun _ hInv => hInv⟩
  | succ k ih =>
    intro i st st' h
    unfold runBars at h
    split at h
    · simp at h
    · rename_i st1 hS
      obtain ⟨hlen, hhead, hcap, hlast, hinv⟩ := ih (i + 1) st1 st' h
      obtain ⟨hshape, hscap, hsinv⟩ := stepBar_ok df p atrCol st i st1 hS
      have hne1 : st1.equity ≠ [] := by
        rw [hshape]
        simp
      refine ⟨?_, ?_, ?_, ?_, ?_⟩
      · rw [hlen, hshape]
        simp only [List.length_append, List.length_singleton]
        omega
      · intro hne
        obtain ⟨hh1, hh2⟩ := hhead hne1
        refine ⟨?_, hh2⟩
        rw [hh1, hshape, head?_append_left _ _ hne]
      · rw [hcap, hscap]
      · intro _
        have h1 : st1.equity.getLast? = some st1.capital := by
          rw [hshape]
          exact List.getLast?_concat _
        exact hlast h1
      · intro hi hInv
        exact hinv (by omega) (hsinv hi hInv)

theorem stInv_init (df : RawDF) (p : Params) (cap : ℚ) : stInv df p (initState cap) := by
  constructor
  · intro t ht
    simp [initState] at ht
  · intro t ht
    simp [initState] at ht

theorem runSim_ok (df : RawDF) (p : Params) (cap : ℚ) (st : EngState)
    (h : runSim df p cap = .ok st) :
    st.equity.length = 1 + (df.length - 1) ∧
    st.equity.head? = some cap ∧
    st.equity.getLast? = some st.capital ∧
    st.capital - sumPnl st.trades = cap ∧
    stInv df p st := by
  unfold runSim at h
  split at h
  · simp at h
  · rename_i atrCol hA
    obtain ⟨h1, h2, h3, h4, h5⟩ :=
      runBars_ok df p atrCol (df.length - 1) 1 (initState cap) st h
    refine ⟨?_, ?_, ?_, ?_, ?_⟩
    · simpa [initState] using h1
    · have := h2 (by simp [initState])
      simpa [initState] using this.1
    · exact h4 (by simp [initState])
    · have h0 : (initState cap).capital - sumPnl (initState cap).trades = cap := by
        simp [initState, sumPnl]
      rw [h3, h0]
    · exact h5 (le_refl 1) (stInv_init df p cap)

theorem finalizeState_ok (df : RawDF) (p : Params) (st st' : EngState)
    (h : finalizeState df p st = .ok st') :
    st'.equity = st.equity ∧
    st'.capital - sumPnl st'.trades = st.capital - sumPnl st.trades ∧
    (st.openTrade = none → st' = st) ∧
    (∀ t, st.openTrade = some t →
      st'.capital = st.capital + sizedPnl p st.capital t (df.close (df.length - 1)) ∧
      sumPnl st'.trades = sumPnl st.trades + sizedPnl p st.capital t (df.close (df.length - 1))) ∧
    (stInv df p st → stInv df p st') := by
  unfold finalizeState at h
  split at h
  · rename_i hO
    injection h with h
    subst h
    refine ⟨rfl, rfl, fun _ => rfl, ?_, fun hInv => hInv⟩
    intro t ht
    rw [hO] at ht
    cases ht
  · rename_i t hO
    split at h
    · simp at h
    · injection h with h
      subst h
      refine ⟨rfl, ?_, ?_, ?_, ?_⟩
      · simp only [sumPnl_append]
        ring
      · intro hn
        rw [hn] at hO
        cases hO
      · intro u hu
        rw [hO] at hu
        injection hu with hu
        subst hu
        exact ⟨rfl, by simp [sumPnl_append]⟩
      · intro hInv
        have ht : tradeProps df p t := hInv.2 t hO
        constructor
        · intro u hu
          simp only [List.mem_append, List.mem_singleton] at hu
          rcases hu with hu | hu
          · exact hInv.1 u hu
          · subst hu
            exact tradeProps_update df p t _ _ _ _ ht
        · intro u hu
          simp at hu

theorem buildResult_equity (st : EngState) :
    (buildResult st).equity_curve = st.equity := by
  unfold buildResult
  split <;> rfl

theorem buildResult_total_pnl (st : EngState) :
    (buildResult st).total_pnl = sumPnl st.trades := by
  unfold buildResult
  split
  · rename_i hnil
    simp [hnil, sumPnl]
  · rfl

theorem buildResult_trades (st : EngState) :
    (buildResult st).trades = st.trades.map tradeDict := by
  unfold buildResult
  split
  · rename_i hnil
    simp [hnil]
  · rfl

theorem run_backtest_ok (df : RawDF) (sp sl tp rp cap : ℚ) (r : BacktestResult)
    (h : run_backtest df sp sl tp rp cap = .ok r) :
    ∃ st st', runSim df (mkParams sp sl tp rp) cap = .ok st ∧
      finalizeState df (mkParams sp sl tp rp) st = .ok st' ∧ r = buildResult st' := by
  unfold run_backtest at h
  split at h
  · simp at h
  · rename_i st hS
    split at h
    · simp at h
    · rename_i st2 hF
      injection h with h
      exact ⟨st, st2, hS, hF, h.symm⟩

/-! ## Claim C2: stop-loss priority on a bar hitting both levels -/

theorem processExit_eq (p : Params) (st : EngState) (i : ℕ) (high low : ℚ) (t : Trade)
    (hO : st.openTrade = some t) :
    processExit p st i high low =
      match checkExitHit t.direction t.stop_loss t.take_profit high low p.spread with
      | none => st
      | some hit => closeTrade p st i t hit.2 := by
  unfold processExit
  rw [hO]

/-- C2: on a bar where the open long trade satisfies both the stop-loss
condition (low ≤ stop) and the take-profit condition (high ≥ target), the
exit decision is the stop-loss branch and the recorded exit price derives
from the stop level (`stop - spread/2`), never the target; mirrored for a
short trade (stop checked on the high before the target on the low, exit at
`stop + spread/2`). -/
theorem C2_stop_loss_priority (p : Params) (st : EngState) (i : ℕ) (high low : ℚ)
    (t : Trade) (hO : st.openTrade = some t) :
    (t.direction = 1 → low ≤ t.stop_loss → t.take_profit ≤ high →
      checkExitHit t.direction t.stop_loss t.take_profit high low p.spread
          = some (true, t.stop_loss - p.spread / 2) ∧
      processExit p st i high low = closeTrade p st i t (t.stop_loss - p.spread / 2)) ∧
    (t.direction = -1 → t.stop_loss ≤ high → low ≤ t.take_profit →
      checkExitHit t.direction t.stop_loss t.take_profit high low p.spread
          = some (true, t.stop_loss + p.spread / 2) ∧
      processExit p st i high low = closeTrade p st i t (t.stop_loss + p.spread / 2)) := by
  constructor
  · intro hd hsl htp
    have hc : checkExitHit t.direction t.stop_loss t.take_profit high low p.spread
        = some (true, t.stop_loss - p.spread / 2) := by
      unfold checkExitHit
      rw [if_pos hd, if_pos hsl]
    refine ⟨hc, ?_⟩
    rw [processExit_eq p st i high low t hO, hc]
  · intro hd hsl htp
    have hd1 : ¬ t.direction = 1 := by
      rw [hd]
      decide
    have hc : checkExitHit t.direction t.stop_loss t.take_profit high low p.spread
        = some (true, t.stop_loss + p.spread / 2) := by
      unfold checkExitHit
      rw [if_neg hd1, if_pos hsl]
    refine ⟨hc, ?_⟩
    rw [processExit_eq p st i high low t hO, hc]

def c2P : Params := mkParams 2 (3 / 2) 2 (1 / 100)

def c2TradeL : Trade :=
  { entry_idx := 1, entry_price := 100, direction := 1, stop_loss := 99, take_profit := 102 }

def c2StL : EngState :=
  { capital := 10000, equity := [10000, 10000], trades := [], openTrade := some c2TradeL }

def c2TradeS : Trade :=
  { entry_idx := 1, entry_price := 100, direction := -1, stop_loss := 101, take_profit := 98 }

def c2StS : EngState :=
  { capital := 10000, equity := [10000, 10000], trades := [], openTrade := some c2TradeS }

theorem C2_stop_loss_priority_witness :
    (checkExitHit c2TradeL.direction c2TradeL.stop_loss c2TradeL.take_profit 102 99 c2P.spread
        = some (true, c2TradeL.stop_loss - c2P.spread / 2) ∧
      processExit c2P c2StL 2 102 99 = closeTrade c2P c2StL 2 c2TradeL
        (c2TradeL.stop_loss - c2P.spread / 2)) ∧
    (checkExitHit c2TradeS.direction c2TradeS.stop_loss c2TradeS.take_profit 102 97 c2P.spread
        = some (true, c2TradeS.stop_loss + c2P.spread / 2) ∧
      processExit c2P c2StS 2 102 97 = closeTrade c2P c2StS 2 c2TradeS
        (c2TradeS.stop_loss + c2P.spread / 2)) := by
  constructor
  · exact (C2_stop_loss_priority c2P c2StL 2 102 99 c2TradeL rfl).1 rfl
      (by norm_num [c2TradeL]) (by norm_num [c2TradeL])
  · exact (C2_stop_loss_priority c2P c2StS 2 102 97 c2TradeS rfl).2 rfl
      (by norm_num [c2TradeS]) (by norm_num [c2TradeS])

/-! ## Claim C9: NaN/zero-ATR bars skip the exit check together with the entry check -/

/-- C9: on a bar whose ATR is undefined (NaN) or zero, the loop body only
appends the current capital to the equity curve: the open position (and the
ledger) are untouched even when the bar's low/high breaches the stop or the
target, so such an exit can only happen on a later defined-nonzero-ATR bar or
at the final force-close. -/
theorem C9_skip_bar (df : RawDF) (p : Params) (atrCol : ℕ → Option ℚ) (st : EngState)
    (i : ℕ) (h : atrCol i = none ∨ atrCol i = some 0) :
    stepBar df p atrCol st i = .ok { st with equity := st.equity ++ [st.capital] } := by
  unfold stepBar
  rcases h with h | h
  · rw [h]
  · rw [h]
    norm_num

def c9P : Params := mkParams (3 / 2) (3 / 2) 2 (1 / 100)

def c9Trade : Trade :=
  { entry_idx := 1, entry_price := 100, direction := 1, stop_loss := 99, take_profit := 102 }

def c9St : EngState :=
  { capital := 10000, equity := [10000, 10000], trades := [], openTrade := some c9Trade }

def c9Df : RawDF :=
  { length := 3, high := fun _ => 110, low := fun _ => 90, close := fun _ => 95 }

def c9Atr : ℕ → Option ℚ := fun _ => none

theorem C9_skip_bar_witness :
    stepBar c9Df c9P c9Atr c9St 2 = .ok { c9St with equity := c9St.equity ++ [c9St.capital] } :=
  C9_skip_bar c9Df c9P c9Atr c9St 2 (Or.inl rfl)

/-! ## Claim C8: the loop starts at bar 1, so no trade is entered at bar 0 -/

/-- C8: every trade dict in the returned ledger has `entry_idx ≥ 1`: the
per-bar loop begins at index 1, so a nonzero signal on bar 0 never opens a
position. -/
theorem C8_entry_after_first_bar (df : RawDF) (sp sl tp rp cap : ℚ) (r : BacktestResult)
    (h : run_backtest df sp sl tp rp cap = .ok r) (td : TradeDict) (htd : td ∈ r.trades) :
    1 ≤ td.entry_idx := by
  obtain ⟨st, st2, hS, hF, hr⟩ := run_backtest_ok df sp sl tp rp cap r h
  have hInv : stInv df (mkParams sp sl tp rp) st := (runSim_ok _ _ _ _ hS).2.2.2.2
  have hInv2 : stInv df (mkParams sp sl tp rp) st2 :=
    (finalizeState_ok _ _ _ _ hF).2.2.2.2 hInv
  subst hr
  rw [buildResult_trades] at htd
  obtain ⟨t, ht, rfl⟩ := List.mem_map.mp htd
  have h1 := (hInv2.1 t ht).1
  simpa [tradeDict] using h1

def df8 : RawDF :=
  { length := 3
    high := fun _ => 100
    low := fun i => if i = 2 then 98 else 100
    close := fun _ => 100
    signal := fun i => if i = 1 then 1 else 0
    atr := fun _ => some 1 }

instance : Inhabited TradeDict :=
  ⟨{ entry_idx := 0, entry_price := 0, exit_idx := -1, exit_price := 0, direction := "",
     pnl := 0, stop_loss := 0, take_profit := 0 }⟩

def resOf8 : BacktestResult := (run_backtest df8 0 1 2 (1 / 100) 10000).toOption.getD default

def td8 : TradeDict := resOf8.trades.headD default

theorem C8_entry_after_first_bar_witness : 1 ≤ td8.entry_idx :=
  C8_entry_after_first_bar df8 0 1 2 (1 / 100) 10000 resOf8
    (by norm_num [run_backtest, runSim, getAtrCol, runBars, stepBar, processExit, processEntry,
        checkExitHit, closeTrade, sizedPnl, finalizeState, buildResult, tradeDict, roundTo,
        roundHalfEven, sumPnl, maxDrawdown, initState, mkParams, pipsToPrice, df8, resOf8,
        Except.toOption, Option.getD])
    td8
    (by norm_num [run_backtest, runSim, getAtrCol, runBars, stepBar, processExit, processEntry,
        checkExitHit, closeTrade, sizedPnl, finalizeState, buildResult, tradeDict, roundTo,
        roundHalfEven, sumPnl, maxDrawdown, initState, mkParams, pipsToPrice, df8, resOf8, td8,
        Except.toOption, Option.getD])

/-! ## Claim C3: equity-curve length and first entry -/

/-- C3 (amended): for every input accepted by the engine the equity curve has
`max len 1` entries — one per bar for a nonempty series, but a single entry
(the initial capital) for the empty series — and its first entry is the
configured initial capital. -/
theorem C3_equity_curve_shape (df : RawDF) (sp sl tp rp cap : ℚ) (r : BacktestResult)
    (h : run_backtest df sp sl tp rp cap = .ok r) :
    r.equity_curve.length = max df.length 1 ∧ r.equity_curve.head? = some cap := by
  obtain ⟨st, st2, hS, hF, hr⟩ := run_backtest_ok df sp sl tp rp cap r h
  obtain ⟨hlen, hhead, _, _, _⟩ := runSim_ok _ _ _ _ hS
  have hEq : st2.equity = st.equity := (finalizeState_ok _ _ _ _ hF).1
  subst hr
  rw [buildResult_equity, hEq]
  constructor
  · rw [hlen]
    omega
  · exact hhead

def dfE3 : RawDF := { length := 0 }

def resOf3 : BacktestResult :=
  (run_backtest dfE3 (3 / 2) (3 / 2) 2 (1 / 100) 10000).toOption.getD default

theorem C3_equity_curve_shape_witness :
    resOf3.equity_curve.length = max dfE3.length 1 ∧ resOf3.equity_curve.head? = some 10000 :=
  C3_equity_curve_shape dfE3 (3 / 2) (3 / 2) 2 (1 / 100) 10000 resOf3
    (by norm_num [run_backtest, runSim, getAtrCol, runBars, stepBar, finalizeState, buildResult,
        initState, mkParams, pipsToPrice, dfE3, resOf3, Except.toOption, Option.getD])

/-- C3 counterexample: on the empty price series `run_backtest` succeeds and
returns an equity curve of length 1, not `len(price_series) = 0`, refuting
the claimed equality for every series including the empty one. -/
theorem C3_counterexample :
    dfE3.length = 0 ∧
    run_backtest dfE3 (3 / 2) (3 / 2) 2 (1 / 100) 10000 = .ok resOf3 ∧
    resOf3.equity_curve.length = 1 ∧
    resOf3.equity_curve.length ≠ dfE3.length := by
  refine ⟨rfl, ?_, ?_, ?_⟩ <;>
    norm_num [run_backtest, runSim, getAtrCol, runBars, stepBar, finalizeState, buildResult,
      initState, mkParams, pipsToPrice, dfE3, resOf3, Except.toOption, Option.getD]

/-! ## Claim C5: the spread argument is pips, converted internally -/

/-- C5 (amended): `run_backtest` accepts its spread configuration in pips and
performs the pips-to-price conversion itself, multiplying by 0.0001
(engine.py line 73, assuming 4-digit pairs); every trade opened by the
simulation is booked at the bar close plus (long) or minus (otherwise) half
of that converted spread, not half of the raw argument. -/
theorem C5_spread_conversion (df : RawDF) (sp sl tp rp cap : ℚ) (st : EngState) (t : Trade)
    (hS : runSim df (mkParams sp sl tp rp) cap = .ok st)
    (ht : t ∈ st.trades ∨ st.openTrade = some t) :
    (t.direction = 1 → t.entry_price = df.close t.entry_idx + pipsToPrice sp / 2) ∧
    (t.direction ≠ 1 → t.entry_price = df.close t.entry_idx - pipsToPrice sp / 2) := by
  have hInv := (runSim_ok _ _ _ _ hS).2.2.2.2
  have hP : tradeProps df (mkParams sp sl tp rp) t := by
    rcases ht with ht | ht
    · exact hInv.1 t ht
    · exact hInv.2 t ht
  have hs : (mkParams sp sl tp rp).spread = pipsToPrice sp := rfl
  constructor
  · intro hd
    rw [hP.2.1 hd, hs]
  · intro hd
    rw [hP.2.2 hd, hs]

def df5 : RawDF :=
  { length := 2
    high := fun _ => 100
    low := fun _ => 100
    close := fun _ => 100
    signal := fun i => if i = 1 then 1 else 0
    atr := fun _ => some 1 }

def st5 : EngState := (runSim df5 (mkParams 2 1 2 (1 / 100)) 10000).toOption.getD default

def t5 : Trade := st5.openTrade.getD default

theorem C5_spread_conversion_witness :
    t5.direction = 1 ∧ t5.entry_price = df5.close t5.entry_idx + pipsToPrice 2 / 2 := by
  refine ⟨?_, ?_⟩
  · norm_num [runSim, getAtrCol, runBars, stepBar, processExit, processEntry, checkExitHit,
      initState, mkParams, pipsToPrice, df5, st5, t5, Except.toOption, Option.getD]
  · exact (C5_spread_conversion df5 2 1 2 (1 / 100) 10000 st5 t5
      (by norm_num [runSim, getAtrCol, runBars, stepBar, processExit, processEntry, checkExitHit,
        initState, mkParams, pipsToPrice, df5, st5, Except.toOption, Option.getD])
      (Or.inr (by norm_num [runSim, getAtrCol, runBars, stepBar, processExit, processEntry,
        checkExitHit, initState, mkParams, pipsToPrice, df5, st5, t5, Except.toOption,
        Option.getD]))).1
      (by norm_num [runSim, getAtrCol, runBars, stepBar, processExit, processEntry, checkExitHit,
        initState, mkParams, pipsToPrice, df5, st5, t5, Except.toOption, Option.getD])

/-- C5 counterexample: with spread argument 2, the long entry at close 100 is
booked at 100 + 0.0001 — the engine converted the 2 from pips to price units
internally — and not at 100 + 2/2 = 101, which an already-in-price-units
spread applied as given would produce. -/
theorem C5_counterexample :
    t5.entry_price = 100 + 1 / 10000 ∧ t5.entry_price ≠ 100 + (2 : ℚ) / 2 := by
  constructor <;>
    norm_num [runSim, getAtrCol, runBars, stepBar, processExit, processEntry, checkExitHit,
      initState, mkParams, pipsToPrice, df5, st5, t5, Except.toOption, Option.getD]

/-! ## Claim C10: force-close pnl is excluded from the last equity entry -/

/-- C10: the final equity-curve entry is appended before any force-close, so
when the loop ends flat the last entry equals `initial_capital + total_pnl`,
while when a position is still open the last entry equals
`initial_capital + total_pnl − (force-close pnl)` — the ledger and total_pnl
include the force-closed trade but the equity curve does not. -/
theorem C10_force_close_equity (df : RawDF) (sp sl tp rp cap : ℚ) (st : EngState)
    (r : BacktestResult)
    (hS : runSim df (mkParams sp sl tp rp) cap = .ok st)
    (hR : run_backtest df sp sl tp rp cap = .ok r) :
    (st.openTrade = none → r.equity_curve.getLast? = some (cap + r.total_pnl)) ∧
    (∀ t, st.openTrade = some t →
      r.equity_curve.getLast? = some (cap + r.total_pnl -
        sizedPnl (mkParams sp sl tp rp) st.capital t (df.close (df.length - 1)))) := by
  obtain ⟨st0, st2, hS0, hF, hr⟩ := run_backtest_ok df sp sl tp rp cap r hR
  rw [hS] at hS0
  injection hS0 with hEq0
  subst hEq0
  obtain ⟨hlen, hhead, hgl, hcap, hinv⟩ := runSim_ok _ _ _ _ hS
  obtain ⟨hFeq, hFcap, hFnone, hFsome, _⟩ := finalizeState_ok _ _ _ _ hF
  subst hr
  constructor
  · intro hn
    have h2 := hFnone hn
    subst h2
    rw [buildResult_equity, buildResult_total_pnl, hgl]
    exact congrArg some (by linarith)
  · intro t htO
    obtain ⟨hc2, hsum2⟩ := hFsome t htO
    rw [buildResult_equity, buildResult_total_pnl, hFeq, hgl, hsum2]
    exact congrArg some (by linarith)

def df10 : RawDF :=
  { length := 3
    high := fun i => if i = 2 then 201 / 2 else 100
    low := fun i => if i = 2 then 199 / 2 else 100
    close := fun i => if i = 2 then 199 / 2 else 100
    signal := fun i => if i = 1 then 1 else 0
    atr := fun _ => some 1 }

def st10 : EngState := (runSim df10 (mkParams 0 1 2 (1 / 100)) 10000).toOption.getD default

def t10 : Trade := st10.openTrade.getD default

def res10 : BacktestResult := (run_backtest df10 0 1 2 (1 / 100) 10000).toOption.getD default

theorem C10_force_close_equity_witness :
    res10.equity_curve.getLast? = some (10000 + res10.total_pnl -
      sizedPnl (mkParams 0 1 2 (1 / 100)) st10.capital t10 (df10.close (df10.length - 1))) ∧
    res10.equity_curve.getLast? = some 10000 ∧
    res10.total_pnl = -50 := by
  refine ⟨?_, ?_, ?_⟩
  · exact (C10_force_close_equity df10 0 1 2 (1 / 100) 10000 st10 res10
      (by norm_num [runSim, getAtrCol, runBars, stepBar, processExit, processEntry, checkExitHit,
        initState, mkParams, pipsToPrice, df10, st10, Except.toOption, Option.getD])
      (by norm_num [run_backtest, runSim, getAtrCol, runBars, stepBar, processExit, processEntry,
        checkExitHit, closeTrade, sizedPnl, finalizeState, buildResult, tradeDict, roundTo,
        roundHalfEven, sumPnl, maxDrawdown, initState, mkParams, pipsToPrice, df10, res10,
        Except.toOption, Option.getD])).2 t10
      (by norm_num [runSim, getAtrCol, runBars, stepBar, processExit, processEntry, checkExitHit,
        initState, mkParams, pipsToPrice, df10, st10, t10, Except.toOption, Option.getD])
  · norm_num [run_backtest, runSim, getAtrCol, runBars, stepBar, processExit, processEntry,
      checkExitHit, closeTrade, sizedPnl, finalizeState, buildResult, tradeDict, roundTo,
      roundHalfEven, sumPnl, maxDrawdown, initState, mkParams, pipsToPrice, df10, res10,
      Except.toOption, Option.getD]
  · norm_num [run_backtest, runSim, getAtrCol, runBars, stepBar, processExit, processEntry,
      checkExitHit, closeTrade, sizedPnl, finalizeState, buildResult, tradeDict, roundTo,
      roundHalfEven, sumPnl, maxDrawdown, initState, mkParams, pipsToPrice, df10, res10,
      Except.toOption, Option.getD]

/-! ## Claim C6: which outputs are exact and which are rounded -/

/-- C6 (amended): the aggregate outputs of `run_backtest` are exact values of
the simulation arithmetic — the equity curve is the raw simulated curve and
`total_pnl` the exact sum of the raw per-trade pnls — but the per-trade dicts
in `trades` are rounded for presentation (prices to 5 decimal places, pnl to
2), so the returned result is not entirely unrounded. -/
theorem C6_exact_aggregates_rounded_trades (df : RawDF) (sp sl tp rp cap : ℚ)
    (st : EngState) (r : BacktestResult)
    (hS : runSim df (mkParams sp sl tp rp) cap = .ok st)
    (hO : st.openTrade = none)
    (hR : run_backtest df sp sl tp rp cap = .ok r) :
    r.equity_curve = st.equity ∧ r.total_pnl = sumPnl st.trades ∧
    r.trades = st.trades.map tradeDict := by
  obtain ⟨st0, st2, hS0, hF, hr⟩ := run_backtest_ok df sp sl tp rp cap r hR
  rw [hS] at hS0
  injection hS0 with hEq0
  subst hEq0
  have h2 := (finalizeState_ok _ _ _ _ hF).2.2.1 hO
  subst h2
  subst hr
  exact ⟨buildResult_equity _, buildResult_total_pnl _, buildResult_trades _⟩

def df6 : RawDF :=
  { length := 3
    high := fun _ => 100
    low := fun i => if i = 2 then 98 else 100
    close := fun _ => 100
    signal := fun i => if i = 1 then 1 else 0
    atr := fun _ => some 1 }

def st6 : EngState :=
  (runSim df6 (mkParams (1 / 500) 1 2 (1 / 100)) 10000).toOption.getD default

def res6 : BacktestResult :=
  (run_backtest df6 (1 / 500) 1 2 (1 / 100) 10000).toOption.getD default

theorem C6_exact_aggregates_rounded_trades_witness :
    res6.equity_curve = st6.equity ∧ res6.total_pnl = sumPnl st6.trades ∧
    res6.trades = st6.trades.map tradeDict :=
  C6_exact_aggregates_rounded_trades df6 (1 / 500) 1 2 (1 / 100) 10000 st6 res6
    (by norm_num [runSim, getAtrCol, runBars, stepBar, processExit, processEntry, checkExitHit,
      closeTrade, sizedPnl, initState, mkParams, pipsToPrice, df6, st6, Except.toOption,
      Option.getD])
    (by norm_num [runSim, getAtrCol, runBars, stepBar, processExit, processEntry, checkExitHit,
      closeTrade, sizedPnl, initState, mkParams, pipsToPrice, df6, st6, Except.toOption,
      Option.getD])
    (by norm_num [run_backtest, runSim, getAtrCol, runBars, stepBar, processExit, processEntry,
      checkExitHit, closeTrade, sizedPnl, finalizeState, buildResult, tradeDict, roundTo,
      roundHalfEven, sumPnl, maxDrawdown, initState, mkParams, pipsToPrice, df6, res6,
      Except.toOption, Option.getD])

/-- C6 counterexample: a concrete run whose returned trade dict reports
entry price 100 while the simulation entry price is 100 + 1/10000000, and
whose exact `total_pnl` differs from the sum of the reported (rounded)
per-trade pnls — `run_backtest` does round values it returns. -/
theorem C6_counterexample :
    res6.trades.map TradeDict.entry_price = [100] ∧
    st6.trades.map Trade.entry_price = [100 + 1 / 10000000] ∧
    res6.total_pnl ≠ (res6.trades.map TradeDict.pnl).sum := by
  refine ⟨?_, ?_, ?_⟩ <;>
    norm_num [run_backtest, runSim, getAtrCol, runBars, stepBar, processExit, processEntry,
      checkExitHit, closeTrade, sizedPnl, finalizeState, buildResult, tradeDict, roundTo,
      roundHalfEven, sumPnl, maxDrawdown, initState, mkParams, pipsToPrice, df6, st6, res6,
      Except.toOption, Option.getD]

/-! ## Claim C1: when volatility-contraction signals fire -/

theorem vcInSq_some_squeeze (d : VCData) : ∀ i, vcInSq d i = true →
    ∃ j, j < i ∧ d.squeeze j = true := by
  intro i
  induction i with
  | zero =>
    intro h
    simp [vcInSq] at h
  | succ k ih =>
    intro h
    by_cases hk : d.squeeze k = true
    · exact ⟨k, Nat.lt_succ_self k, hk⟩
    · have hk2 : d.squeeze k = false := by
        cases hsk : d.squeeze k
        · rfl
        · exact absurd hsk hk
      have hs : vcInSq d k = true := by
        cases hin : vcInSq d k
        · exfalso
          simp [vcInSq, hk2, hin] at h
        · rfl
      obtain ⟨j, hj, hsj⟩ := ih hs
      exact ⟨j, Nat.lt_succ_of_lt hj, hsj⟩

/-- C1 (amended): a nonzero signal is emitted only at a bar `i` where the
squeeze flag is 0 at `i`, some earlier bar had the flag at 1, and the close
at `i` breaks beyond a Bollinger band (above the upper band for BUY = 1,
below the lower band for SELL = -1).  The release transition need not be at
`i-1`: a release bar without a breakout does **not** consume the pending
squeeze state — it persists until a signal actually fires, so a signal can
fire several bars after the squeeze ended, without a new squeeze run. -/
theorem C1_signal_conditions (d : VCData) (i : ℕ) (hn : i < d.n) (h : vcSignal d i ≠ 0) :
    d.squeeze i = false ∧ (∃ j, j < i ∧ d.squeeze j = true) ∧
    (vcSignal d i = 1 → d.bb_upper i < d.close i) ∧
    (vcSignal d i = -1 → d.close i < d.bb_lower i) := by
  cases i with
  | zero => exact absurd rfl h
  | succ k =>
    by_cases hc : ((if d.squeeze k then true else vcInSq d k) && !d.squeeze (k + 1)) = true
    · have hsq : d.squeeze (k + 1) = false := by
        have h2 := (Bool.and_eq_true _ _).mp hc
        simpa using h2.2
      have hs : (if d.squeeze k then true else vcInSq d k) = true :=
        ((Bool.and_eq_true _ _).mp hc).1
      have hex : ∃ j, j < k + 1 ∧ d.squeeze j = true := by
        by_cases hk : d.squeeze k
        · exact ⟨k, Nat.lt_succ_self k, hk⟩
        · rw [if_neg hk] at hs
          obtain ⟨j, hj, hsj⟩ := vcInSq_some_squeeze d k hs
          exact ⟨j, Nat.lt_succ_of_lt hj, hsj⟩
      by_cases hup : d.bb_upper (k + 1) < d.close (k + 1)
      · have hval : vcSignal d (k + 1) = 1 := by
          simp only [vcSignal]
          rw [if_pos hc, if_pos hup]
        refine ⟨hsq, hex, fun _ => hup, fun habs => ?_⟩
        rw [hval] at habs
        norm_num at habs
      · by_cases hlo : d.close (k + 1) < d.bb_lower (k + 1)
        · have hval : vcSignal d (k + 1) = -1 := by
            simp only [vcSignal]
            rw [if_pos hc, if_neg hup, if_pos hlo]
          refine ⟨hsq, hex, fun habs => ?_, fun _ => hlo⟩
          rw [hval] at habs
          norm_num at habs
        · have hval : vcSignal d (k + 1) = 0 := by
            simp only [vcSignal]
            rw [if_pos hc, if_neg hup, if_neg hlo]
          exact absurd hval h
    · have hval : vcSignal d (k + 1) = 0 := by
        simp only [vcSignal]
        rw [if_neg hc]
      exact absurd hval h

def vcEx : VCData :=
  { n := 3
    squeeze := fun i => i == 0
    close := fun i => if i = 2 then 20 else 0
    bb_upper := fun _ => 10
    bb_lower := fun _ => -10 }

/-- C1 counterexample: with squeeze flags `[1, 0, 0]`, no breakout on the
release bar 1, and a close above the upper band on bar 2, the loop emits a
BUY signal at bar 2 even though the squeeze flag does not transition 1→0
there (`squeeze 1 = 0`) and no new squeeze run began after the unconsumed
release — refuting both halves of the claim. -/
theorem C1_counterexample :
    vcSignal vcEx 2 = 1 ∧ vcEx.squeeze 1 = false ∧ vcEx.squeeze 2 = false ∧ 2 < vcEx.n := by
  refine ⟨?_, rfl, rfl, ?_⟩
  · norm_num [vcSignal, vcInSq, vcEx]
  · norm_num [vcEx]

theorem C1_signal_conditions_witness :
    vcEx.squeeze 2 = false ∧ (∃ j, j < 2 ∧ vcEx.squeeze j = true) ∧
    (vcSignal vcEx 2 = 1 → vcEx.bb_upper 2 < vcEx.close 2) ∧
    (vcSignal vcEx 2 = -1 → vcEx.close 2 < vcEx.bb_lower 2) :=
  C1_signal_conditions vcEx 2 (by norm_num [vcEx])
    (by norm_num [vcSignal, vcInSq, vcEx])

/-! ## Claim C4: failed coercion in set_parameters -/

/-- C4 (amended): when `set_parameters` hits a value that cannot be coerced
to the parameter's declared type, the error propagates to the caller, but the
update is partially applied: every key of the mapping processed before the
failing key keeps its newly assigned value, while the failing key and all
later keys are left unchanged. -/
theorem C4_partial_application (store : ParamStore) (pre : List (String × PVal))
    (k : String) (v : PVal) (post : List (String × PVal)) (st1 : ParamStore)
    (cur : PVal) (msg : String)
    (h1 : set_parameters_base store pre = (st1, none))
    (h2 : st1.lookup k = some cur)
    (h3 : coerceTo cur v = .error msg) :
    set_parameters_base store (pre ++ (k, v) :: post) = (st1, some msg) := by
  induction pre generalizing store with
  | nil =>
    unfold set_parameters_base at h1
    injection h1 with ha hb
    subst ha
    simp only [List.nil_append]
    unfold set_parameters_base
    split
    · rename_i hL
      rw [h2] at hL
      exact Option.noConfusion hL
    · rename_i cur1 hL
      rw [h2] at hL
      injection hL with hq
      subst hq
      split
      · rename_i e hC
        rw [h3] at hC
        injection hC with hm
        subst hm
        rfl
      · rename_i v2 hC
        rw [h3] at hC
        exact Except.noConfusion hC
  | cons kv rest ih =>
    obtain ⟨k0, v0⟩ := kv
    simp only [List.cons_append]
    unfold set_parameters_base at h1 ⊢
    split at h1
    · exact ih store h1
    · rename_i cur0 hL
      split at h1
      · rename_i e hC
        injection h1 with ha hb
        exact Option.noConfusion hb
      · rename_i v2 hC
        exact ih (setAttr store k0 v2) h1

def c4Pre : List (String × PVal) := [("rsi_period", PVal.s "25")]

def c4St1 : ParamStore :=
  [("rsi_period", .i 25), ("rsi_oversold", .i 30), ("rsi_overbought", .i 70),
   ("use_bollinger", .b true), ("bb_period", .i 20), ("bb_std", .f 2)]

theorem C4_partial_application_witness :
    set_parameters_base mrDefaults (c4Pre ++ ("rsi_oversold", PVal.s "abc") :: []) =
      (c4St1, some "invalid literal for int() with base 10: abc") :=
  C4_partial_application mrDefaults c4Pre "rsi_oversold" (PVal.s "abc") [] c4St1 (PVal.i 30)
    "invalid literal for int() with base 10: abc"
    (by decide) (by decide) rfl

/-- C4 counterexample: calling the mean-reversion setter with
`{"rsi_period": "25", "bb_std": "abc"}` raises the float-coercion error, yet
the strategy state after the failed call is not the state before the call:
`rsi_period` has already been set to 25 — partial application does occur. -/
theorem C4_counterexample :
    (set_parameters_mr mrDefaults [("rsi_period", PVal.s "25"), ("bb_std", PVal.s "abc")]).2
        = some "could not convert string to float: abc" ∧
    (set_parameters_mr mrDefaults [("rsi_period", PVal.s "25"), ("bb_std", PVal.s "abc")]).1
        ≠ mrDefaults ∧
    (set_parameters_mr mrDefaults
        [("rsi_period", PVal.s "25"), ("bb_std", PVal.s "abc")]).1.lookup "rsi_period"
        = some (PVal.i 25) := by
  refine ⟨?_, ?_, ?_⟩ <;> decide

/-! ## Claim C7: behaviour on empty or malformed input -/

def dfE7 : RawDF := { length := 0 }

def df7mc : RawDF :=
  { length := 2
    hasClose := false
    high := fun _ => 100
    low := fun _ => 100
    atr := fun _ => some 1 }

def df7ms : RawDF :=
  { length := 3
    hasSignal := false
    high := fun _ => 100
    low := fun _ => 100
    close := fun _ => 100
    atr := fun _ => none }

/-- C7 (amended): `run_backtest` performs no up-front input validation.  An
empty price series is silently tolerated: the call returns a normal
BacktestResult with a single-entry equity curve and no trades.  A missing
required column surfaces as a KeyError only if and when the run actually
accesses that column: a missing `close` column fails on the first
defined-nonzero-ATR bar, while a missing `signal` column goes unnoticed on a
series whose ATR is undefined on every bar. -/
theorem C7_no_input_validation :
    run_backtest dfE7 (3 / 2) (3 / 2) 2 (1 / 100) 10000 =
      .ok { equity_curve := [10000], total_trades := 0 } ∧
    run_backtest df7mc (3 / 2) (3 / 2) 2 (1 / 100) 10000 = .error "close" ∧
    run_backtest df7ms (3 / 2) (3 / 2) 2 (1 / 100) 10000 =
      .ok { equity_curve := [10000, 10000, 10000], total_trades := 0 } := by
  refine ⟨?_, ?_, ?_⟩ <;>
    norm_num [run_backtest, runSim, getAtrCol, runBars, stepBar, finalizeState, buildResult,
      initState, mkParams, pipsToPrice, dfE7, df7mc, df7ms]

/-- C7 counterexample: the claim requires the call to fail on an empty
series; instead the engine silently returns a normal result for it. -/
theorem C7_counterexample :
    dfE7.length = 0 ∧
    (run_backtest dfE7 (3 / 2) (3 / 2) 2 (1 / 100) 10000).toOption.isSome = true := by
  refine ⟨rfl, ?_⟩
  norm_num [run_backtest, runSim, getAtrCol, runBars, stepBar, finalizeState, buildResult,
    initState, mkParams, pipsToPrice, dfE7, Except.toOption]
